import Mathlib

set_option linter.unusedVariables false

/- Verification of the synchronization engine in s3-v2.js: change queueing,
   debounced scheduling, three-way merge conflict resolution, diff
   computation, and chunked transfer of the serialized diff. -/

/-- A versioned record as produced by queueChange: the source spreads the
submitted change and stamps it with a timestamp (Date.now, wall-clock
milliseconds, modelled as Nat) and the device identifier. -/
structure Record where
  id : String
  payload : String
  timestamp : Nat
  deviceId : String
deriving DecidableEq

/-- A snapshot is a JavaScript object keyed by record id, modelled as an
association list in insertion order. Objects built by the source always have
unique keys; where a proof needs that fact it appears as a Nodup hypothesis
on the key list. -/
abbrev Snapshot := List (String × Record)

/-- Property read state[key] on a snapshot object. -/
def getKey : Snapshot → String → Option Record
  | [], _ => none
  | (k, v) :: rest, i => if k = i then some v else getKey rest i

/-- Property write state[key] = value on a snapshot object: replaces the
entry in place when the key exists, otherwise appends a new entry, matching
JavaScript object assignment and insertion order. -/
def setKey : Snapshot → String → Record → Snapshot
  | [], k, v => [(k, v)]
  | (k1, v1) :: rest, k, v =>
      if k1 = k then (k, v) :: rest else (k1, v1) :: setKey rest k v

/-- The key list of a snapshot object. -/
def keysOf (s : Snapshot) : List String := s.map Prod.fst

/-- Strict lexicographic comparison of character sequences by code unit,
the order JavaScript uses for its string < and > operators. -/
def charListLt : List Char → List Char → Bool
  | [], [] => false
  | [], _ :: _ => true
  | _ :: _, [] => false
  | a :: as, b :: bs =>
      if a.val.toNat < b.val.toNat then true
      else if b.val.toNat < a.val.toNat then false
      else charListLt as bs

/-- The JavaScript string comparison a < b (so jsLt a b means b > a holds in
the source): lexicographic by code unit. -/
def jsLt (a b : String) : Bool := charListLt a.data b.data

/-- One iteration of the merge loop in S3SyncManager.mergeChanges: a pending
change is compared against the remote version of its id. The source also
reads baseState[change.id] into a local variable baseVersion that is never
used in the decision. The JavaScript comparison
change.deviceId > remoteVersion.deviceId is modelled with jsLt. -/
def mergeStep (remoteState : Snapshot) (merged : Snapshot) (change : Record) : Snapshot :=
  match getKey remoteState change.id with
  | none => setKey merged change.id change
  | some remoteVersion =>
      if remoteVersion.timestamp < change.timestamp then
        setKey merged change.id change
      else if remoteVersion.timestamp = change.timestamp then
        if jsLt remoteVersion.deviceId change.deviceId then
          setKey merged change.id change
        else merged
      else merged

/-- The method S3SyncManager.mergeChanges: starts from a copy of the remote state
(the object spread) and runs the merge loop over the local changes in queue
order. baseState corresponds to this.getLastKnownState(), which the source
reads but never uses in the acceptance decision. -/
def mergeChanges (baseState remoteState : Snapshot) (localChanges : List Record) : Snapshot :=
  localChanges.foldl (mergeStep remoteState) remoteState

/-- The method S3SyncManager.calculateDiff: iterates the entries of newState and keeps
exactly those absent from oldState or carrying a different timestamp. -/
def calculateDiff : Snapshot → Snapshot → Snapshot
  | [], _ => []
  | (k, v) :: rest, oldState =>
      match getKey oldState k with
      | none => (k, v) :: calculateDiff rest oldState
      | some oldVersion =>
          if oldVersion.timestamp ≠ v.timestamp then (k, v) :: calculateDiff rest oldState
          else calculateDiff rest oldState

/-- Modelled from the spec: performSync calls this.hasChanges(merged, remote)
but no method of that name is defined in the source file. Spec section 4.5
(the DIFF step) says the upload is skipped exactly when the diff between the
merged and the remote state is empty. -/
def hasChanges (newState oldState : Snapshot) : Bool :=
  !(calculateDiff newState oldState).isEmpty

/-- The mutable fields of S3SyncManager. lastKnownState stands for the local
baseline store read through this.getLastKnownState, an external collaborator
per spec section 6; the source never writes it. -/
structure SyncState where
  changeQueue : List Record
  lastSyncTimestamp : Nat
  isSyncing : Bool
  lastKnownState : Snapshot
deriving DecidableEq

/-- A manager state together with the armed setTimeout callbacks, recorded as
absolute fire deadlines in arming order. Every armed timer will invoke
performSync when it fires. -/
structure SchedState where
  sync : SyncState
  timers : List Nat
deriving DecidableEq

/-- The SYNC_DELAY constant of scheduleSyncIfNeeded: 5 seconds. -/
def SYNC_DELAY : Nat := 5000

/-- The method S3SyncManager.scheduleSyncIfNeeded, called at current time now: arms a
setTimeout for performSync after SYNC_DELAY when no cycle is running and the
queue is nonempty. The source arms a fresh timer on every such call; nothing
deduplicates, counts or resets previously armed timers. -/
def scheduleSyncIfNeeded (st : SchedState) (now : Nat) : SchedState :=
  if st.sync.isSyncing = false ∧ 0 < st.sync.changeQueue.length then
    { st with timers := st.timers ++ [now + SYNC_DELAY] }
  else st

/-- A change as submitted by the caller, before queueChange stamps it. -/
structure ChangeInput where
  id : String
  payload : String
deriving DecidableEq

/-- The record queueChange pushes: the submitted change spread together with
the current time and the device identifier (getDeviceId, an external identity
collaborator per spec section 6, modelled as a parameter). -/
def stampChange (c : ChangeInput) (now : Nat) (deviceId : String) : Record :=
  { id := c.id, payload := c.payload, timestamp := now, deviceId := deviceId }

/-- The method S3SyncManager.queueChange at current time now on device deviceId: pushes
the stamped change onto the queue and calls scheduleSyncIfNeeded. -/
def queueChange (st : SchedState) (c : ChangeInput) (now : Nat) (deviceId : String) : SchedState :=
  scheduleSyncIfNeeded
    { st with sync :=
        { st.sync with changeQueue := st.sync.changeQueue ++ [stampChange c now deviceId] } }
    now

/-- Runs queueChange over a list of arrivals, each a submitted change with its
enqueue time; used to model the queueChange calls the event loop executes
while a cycle is suspended at an await. -/
def enqueueAll (st : SchedState) (arrivals : List (ChangeInput × Nat)) (deviceId : String) : SchedState :=
  arrivals.foldl (fun s p => queueChange s p.1 p.2 deviceId) st

/-- The environment of one performSync invocation: what the outside world does
at each of the two suspension points of the cycle. arrivalsDuringFetch and
arrivalsDuringUpload are the queueChange calls the event loop runs while the
cycle awaits fetchRemoteState and uploadDiff respectively; fetchResult is the
fetched remote snapshot, with none modelling a thrown transport error;
uploadOk is false when the upload transport throws; now is the value of
Date.now at commit time. In the single-threaded event loop these two awaits
are the only points where other code can interleave with the cycle. -/
structure CycleEnv where
  arrivalsDuringFetch : List (ChangeInput × Nat)
  fetchResult : Option Snapshot
  arrivalsDuringUpload : List (ChangeInput × Nat)
  uploadOk : Bool
  now : Nat
deriving DecidableEq

/-- The outcome of one performSync invocation: the final state plus which
external effects ran and whether an error was caught by the catch block. The
source catches every cycle error and never rethrows, so the model is a total
function into this structure. -/
structure CycleResult where
  state : SchedState
  fetchInvoked : Bool
  uploadInvoked : Bool
  errorCaught : Bool
deriving DecidableEq

/-- The method S3SyncManager.performSync, line by line: the isSyncing guard; isSyncing
set to true; await fetchRemoteState (arrivals of that await are enqueued by
queueChange, and a thrown fetch error jumps to the catch block); mergeChanges
applied to the live queue; the hasChanges gate (see hasChanges above; the
inner empty-diff early return of the uploadDiff method tests the same
condition); await uploadDiff (again with arrivals, and a thrown upload error
jumps to catch); on success the assignments this.changeQueue = [] and
this.lastSyncTimestamp = Date.now(); the finally block resets isSyncing. The
success path assigns a fresh empty array to changeQueue, so any arrivals of
the upload await are discarded there. performSync contains no call to
scheduleSyncIfNeeded, so it never arms a timer; arrivals inside the cycle
call scheduleSyncIfNeeded with isSyncing true, which arms nothing. -/
def performSync (st : SchedState) (deviceId : String) (env : CycleEnv) : CycleResult :=
  if st.sync.isSyncing then
    { state := st, fetchInvoked := false, uploadInvoked := false, errorCaught := false }
  else
    let running : SchedState := { st with sync := { st.sync with isSyncing := true } }
    let afterFetchWait := enqueueAll running env.arrivalsDuringFetch deviceId
    match env.fetchResult with
    | none =>
        { state := { afterFetchWait with sync := { afterFetchWait.sync with isSyncing := false } },
          fetchInvoked := true, uploadInvoked := false, errorCaught := true }
    | some remoteState =>
        let mergedState :=
          mergeChanges afterFetchWait.sync.lastKnownState remoteState afterFetchWait.sync.changeQueue
        if hasChanges mergedState remoteState then
          let afterUploadWait := enqueueAll afterFetchWait env.arrivalsDuringUpload deviceId
          if env.uploadOk then
            { state := { afterUploadWait with sync :=
                { afterUploadWait.sync with
                    changeQueue := [], lastSyncTimestamp := env.now, isSyncing := false } },
              fetchInvoked := true, uploadInvoked := true, errorCaught := false }
          else
            { state := { afterUploadWait with sync :=
                { afterUploadWait.sync with isSyncing := false } },
              fetchInvoked := true, uploadInvoked := true, errorCaught := true }
        else
          { state := { afterFetchWait with sync :=
              { afterFetchWait.sync with
                  changeQueue := [], lastSyncTimestamp := env.now, isSyncing := false } },
            fetchInvoked := true, uploadInvoked := false, errorCaught := false }

/-- One setTimeout callback armed by scheduleSyncIfNeeded fires: the timer is
consumed and performSync runs. With no armed timer nothing happens. -/
def fireTimer (st : SchedState) (deviceId : String) (env : CycleEnv) : CycleResult :=
  match st.timers with
  | [] => { state := st, fetchInvoked := false, uploadInvoked := false, errorCaught := false }
  | _ :: rest => performSync { st with timers := rest } deviceId env

/-- The result of the transfer layer: either a single-object upload or a
multipart upload with its ordered parts. -/
inductive TransferResult (α : Type) where
  | single : List α → TransferResult α
  | multipart : List (List α) → TransferResult α
deriving DecidableEq

/-- Discriminates the single-unit upload path. -/
def TransferResult.isSingle {α : Type} : TransferResult α → Bool
  | TransferResult.single _ => true
  | TransferResult.multipart _ => false

/-- Modelled from the spec: the bodies of uploadSingle and uploadMultipart are
elided in the source (the comment Implementation details for uploads). Spec
section 4.6 says the multipart path splits the payload into ordered parts
each at most the threshold, reassembled in order by the remote side. -/
def chunkPayload {α : Type} (m : Nat) : List α → List (List α)
  | [] => []
  | a :: rest =>
      if h : m = 0 then []
      else (a :: rest).take m :: chunkPayload m ((a :: rest).drop m)
termination_by data => data.length
decreasing_by
  simp only [List.length_drop]
  simp only [List.length_cons]
  omega

namespace S3MultipartUpload

/-- The PART_SIZE field of S3MultipartUpload: 5 MiB. -/
def PART_SIZE : Nat := 5 * 1024 * 1024

/-- The method S3MultipartUpload.uploadDiff applied to the serialized payload (the
source serializes the diff with JSON.stringify and branches on data.length;
serialization is abstracted and the payload is taken as a list of code
units): strictly below PART_SIZE the payload is sent as a single unit,
otherwise it goes down the multipart path, modelled with chunkPayload. -/
def uploadDiff {α : Type} (data : List α) : TransferResult α :=
  if data.length < PART_SIZE then TransferResult.single data
  else TransferResult.multipart (chunkPayload PART_SIZE data)

end S3MultipartUpload

/-- Fixture: a pending change with id a, timestamp 100, device X. -/
def recX : Record := { id := "a", payload := "px", timestamp := 100, deviceId := "X" }

/-- Fixture: a pending change with id a, timestamp 100, device Y. -/
def recY : Record := { id := "a", payload := "py", timestamp := 100, deviceId := "Y" }

/-- Fixture: a submitted change with id b. -/
def inputB : ChangeInput := { id := "b", payload := "pb" }

/-- Fixture: a submitted change with id c1. -/
def inputC1 : ChangeInput := { id := "c1", payload := "q1" }

/-- Fixture: a submitted change with id c2. -/
def inputC2 : ChangeInput := { id := "c2", payload := "q2" }

/-- Fixture: a fresh manager, idle with an empty queue and no armed timer. -/
def emptyIdle : SchedState :=
  { sync := { changeQueue := [], lastSyncTimestamp := 0, isSyncing := false, lastKnownState := [] },
    timers := [] }

/-- Fixture: an idle manager holding one queued change and the timer its
enqueue armed. -/
def stOneQueued : SchedState :=
  { sync := { changeQueue := [recX], lastSyncTimestamp := 0, isSyncing := false, lastKnownState := [] },
    timers := [SYNC_DELAY] }

/-- Fixture: a manager with a cycle currently running. -/
def stBusy : SchedState :=
  { sync := { changeQueue := [recX], lastSyncTimestamp := 7, isSyncing := true, lastKnownState := [] },
    timers := [] }

/-- Fixture: a quiet cycle environment; the fetch returns an empty remote
snapshot, nothing arrives, the upload would succeed. -/
def envTrivial : CycleEnv :=
  { arrivalsDuringFetch := [], fetchResult := some [],
    arrivalsDuringUpload := [], uploadOk := true, now := 42 }

/-- Fixture: a cycle whose fetch throws while one change arrives during the
fetch await. -/
def envFetchFail : CycleEnv :=
  { arrivalsDuringFetch := [(inputB, 100)], fetchResult := none,
    arrivalsDuringUpload := [], uploadOk := true, now := 200 }

/-- Fixture: a successful cycle (fetch returns an empty remote snapshot, the
upload succeeds) during whose upload await one change arrives. -/
def envUploadArrival : CycleEnv :=
  { arrivalsDuringFetch := [], fetchResult := some [],
    arrivalsDuringUpload := [(inputB, 20)], uploadOk := true, now := 30 }

/- ------------------------------------------------------------------ -/
/- Theorems.                                                          -/
/- ------------------------------------------------------------------ -/

@[simp]
theorem keysOf_cons (k : String) (v : Record) (rest : Snapshot) :
    keysOf ((k, v) :: rest) = k :: keysOf rest := rfl

theorem getKey_setKey_self (s : Snapshot) (k : String) (v : Record) :
    getKey (setKey s k v) k = some v := by
  induction s with
  | nil => simp [setKey, getKey]
  | cons p rest ih =>
    obtain ⟨k1, v1⟩ := p
    by_cases h : k1 = k
    · simp [setKey, h, getKey]
    · simp [setKey, h, getKey, ih]

theorem getKey_setKey_ne (s : Snapshot) (k i : String) (v : Record) (h : k ≠ i) :
    getKey (setKey s k v) i = getKey s i := by
  induction s with
  | nil => simp [setKey, getKey, h]
  | cons p rest ih =>
    obtain ⟨k1, v1⟩ := p
    by_cases h1 : k1 = k
    · subst h1
      simp [setKey, getKey, h, ih]
    · simp [setKey, h1, getKey, ih]

theorem mem_keysOf_setKey (s : Snapshot) (k i : String) (v : Record)
    (h : i ∈ keysOf (setKey s k v)) : i ∈ keysOf s ∨ i = k := by
  induction s with
  | nil =>
    simp [setKey, keysOf] at h
    exact Or.inr h
  | cons p rest ih =>
    obtain ⟨k1, v1⟩ := p
    by_cases h1 : k1 = k
    · subst h1
      simp [setKey] at h
      rcases h with h | h
      · exact Or.inr h
      · exact Or.inl (by simp [keysOf_cons]; exact Or.inr h)
    · simp [setKey, h1] at h
      rcases h with h | h
      · exact Or.inl (by simp [keysOf_cons, h])
      · rcases ih h with h2 | h2
        · exact Or.inl (by simp [keysOf_cons]; exact Or.inr h2)
        · exact Or.inr h2

theorem keysOf_setKey_nodup (s : Snapshot) (k : String) (v : Record)
    (h : (keysOf s).Nodup) : (keysOf (setKey s k v)).Nodup := by
  induction s with
  | nil => simp [setKey, keysOf]
  | cons p rest ih =>
    obtain ⟨k1, v1⟩ := p
    rw [keysOf_cons, List.nodup_cons] at h
    by_cases h1 : k1 = k
    · subst h1
      simp [setKey, List.nodup_cons]
      exact h
    · simp only [setKey, h1, if_false, keysOf_cons, List.nodup_cons]
      refine ⟨fun hmem => ?_, ih h.2⟩
      rcases mem_keysOf_setKey rest k k1 v hmem with h2 | h2
      · exact h.1 h2
      · exact h1 h2

theorem getKey_mergeStep_ne (remoteState acc : Snapshot) (c : Record) (i : String)
    (h : c.id ≠ i) : getKey (mergeStep remoteState acc c) i = getKey acc i := by
  unfold mergeStep
  split
  · exact getKey_setKey_ne _ _ _ _ h
  · split
    · exact getKey_setKey_ne _ _ _ _ h
    · split
      · split
        · exact getKey_setKey_ne _ _ _ _ h
        · rfl
      · rfl

theorem getKey_foldl_mergeStep_ne (remoteState : Snapshot) (q : List Record) (acc : Snapshot)
    (i : String) (h : ∀ d ∈ q, d.id ≠ i) :
    getKey (q.foldl (mergeStep remoteState) acc) i = getKey acc i := by
  induction q generalizing acc with
  | nil => rfl
  | cons d rest ih =>
    rw [List.foldl_cons]
    rw [ih _ (fun x hx => h x (List.mem_cons_of_mem d hx))]
    exact getKey_mergeStep_ne _ _ _ _ (h d (List.mem_cons_self d rest))

theorem keysOf_mergeStep_nodup (remoteState acc : Snapshot) (c : Record)
    (h : (keysOf acc).Nodup) : (keysOf (mergeStep remoteState acc c)).Nodup := by
  unfold mergeStep
  split
  · exact keysOf_setKey_nodup _ _ _ h
  · split
    · exact keysOf_setKey_nodup _ _ _ h
    · split
      · split
        · exact keysOf_setKey_nodup _ _ _ h
        · exact h
      · exact h

theorem keysOf_foldl_mergeStep_nodup (remoteState : Snapshot) (q : List Record) (acc : Snapshot)
    (h : (keysOf acc).Nodup) : (keysOf (q.foldl (mergeStep remoteState) acc)).Nodup := by
  induction q generalizing acc with
  | nil => exact h
  | cons d rest ih => exact ih _ (keysOf_mergeStep_nodup _ _ _ h)

theorem keysOf_mergeChanges_nodup (baseState remoteState : Snapshot) (q : List Record)
    (h : (keysOf remoteState).Nodup) :
    (keysOf (mergeChanges baseState remoteState q)).Nodup :=
  keysOf_foldl_mergeStep_nodup remoteState q remoteState h

theorem getKey_calculateDiff_of_not_mem (n o : Snapshot) (i : String)
    (h : i ∉ keysOf n) : getKey (calculateDiff n o) i = none := by
  induction n with
  | nil => rfl
  | cons p rest ih =>
    obtain ⟨k, v⟩ := p
    have hk : k ≠ i := by
      intro hh
      exact h (by simp [keysOf_cons, hh])
    have hrest : i ∉ keysOf rest := by
      intro hh
      exact h (by simp [keysOf_cons]; exact Or.inr hh)
    unfold calculateDiff
    split
    · simp [getKey, hk, ih hrest]
    · split
      · simp [getKey, hk, ih hrest]
      · exact ih hrest

theorem getKey_calculateDiff_eq_timestamp (n o : Snapshot) (i : String) (v w : Record)
    (hnd : (keysOf n).Nodup) (hn : getKey n i = some v) (ho : getKey o i = some w)
    (ht : w.timestamp = v.timestamp) : getKey (calculateDiff n o) i = none := by
  induction n with
  | nil => simp [getKey] at hn
  | cons p rest ih =>
    obtain ⟨k, u⟩ := p
    rw [keysOf_cons, List.nodup_cons] at hnd
    by_cases hk : k = i
    · subst hk
      simp [getKey] at hn
      subst hn
      unfold calculateDiff
      split
      · next heq => rw [ho] at heq; cases heq
      · next ov heq =>
        rw [ho] at heq
        have hov : ov = w := by injection heq with h2; exact h2.symm
        subst hov
        rw [if_neg (by omega)]
        exact getKey_calculateDiff_of_not_mem rest o k hnd.1
    · simp only [getKey, if_neg hk] at hn
      unfold calculateDiff
      split
      · simp only [getKey, if_neg hk]
        exact ih hnd.2 hn
      · split
        · simp only [getKey, if_neg hk]
          exact ih hnd.2 hn
        · exact ih hnd.2 hn

/-- Claim C2 counterexample: with an empty remote snapshot and two pending
changes that share id a and timestamp 100, the merge loop keeps whichever
change comes last in the queue, not the one with the greater device
identifier, and permuting the queue changes the result. -/
theorem mergeChanges_tiebreak_order_dependent :
    getKey (mergeChanges [] [] [recY, recX]) "a" = some recX ∧
    getKey (mergeChanges [] [] [recX, recY]) "a" = some recY ∧
    jsLt recX.deviceId recY.deviceId = true ∧ recX ≠ recY := by decide

/-- Claim C2, amended: mergeChanges breaks an equal-timestamp tie only
against the remote entry: a pending change whose timestamp equals the remote
version is kept exactly when its deviceId is lexicographically greater than
the remote one. Among pending changes that share an id, the one processed
last overwrites earlier ones regardless of deviceId, so the merged result is
not invariant under permutation of the pending-change list. -/
theorem mergeChanges_remote_tiebreak (baseState remoteState : Snapshot) (c r : Record)
    (hr : getKey remoteState c.id = some r) (ht : r.timestamp = c.timestamp) :
    getKey (mergeChanges baseState remoteState [c]) c.id =
      if jsLt r.deviceId c.deviceId then some c else some r := by
  unfold mergeChanges
  rw [List.foldl_cons, List.foldl_nil]
  unfold mergeStep
  split
  · next heq => rw [hr] at heq; cases heq
  · next rv heq =>
    rw [hr] at heq
    have hrv : rv = r := by injection heq with h2; exact h2.symm
    subst hrv
    rw [if_neg (by omega)]
    rw [if_pos ht]
    by_cases hdev : jsLt rv.deviceId c.deviceId = true
    · rw [if_pos hdev, if_pos hdev]
      exact getKey_setKey_self _ _ _
    · rw [if_neg hdev, if_neg hdev]
      exact hr

/-- Claim C2 witness: against a remote entry for id a from device X, a single
queued change with the same timestamp from device Y wins the tiebreak. -/
theorem mergeChanges_remote_tiebreak_witness :
    getKey (mergeChanges [] [("a", recX)] [recY]) recY.id = some recY := by
  rw [mergeChanges_remote_tiebreak [] [("a", recX)] recY recX (by decide) (by decide)]
  decide

/-- Claim C8 counterexample: the remote snapshot is empty, so it has no entry
for the id of the pending change recX, yet the merged snapshot does not
contain recX at that key because the later queued change recY with the same
id overwrites it. -/
theorem mergeChanges_absent_id_not_always_kept :
    getKey ([] : Snapshot) recX.id = none ∧
    getKey (mergeChanges [] [] [recX, recY]) recX.id = some recY ∧
    recY ≠ recX := by decide

/-- Claim C8, amended: for every pending change c such that the remote
snapshot has no entry for c.id and no later entry of the queue carries the
same id, the merged snapshot contains c at key c.id. -/
theorem mergeChanges_absent_id_last_wins (baseState remoteState : Snapshot)
    (q1 q2 : List Record) (c : Record)
    (hr : getKey remoteState c.id = none)
    (hlast : ∀ d ∈ q2, d.id ≠ c.id) :
    getKey (mergeChanges baseState remoteState (q1 ++ c :: q2)) c.id = some c := by
  unfold mergeChanges
  rw [List.foldl_append, List.foldl_cons]
  rw [getKey_foldl_mergeStep_ne _ _ _ _ hlast]
  unfold mergeStep
  split
  · exact getKey_setKey_self _ _ _
  · next rv heq => rw [hr] at heq; cases heq

/-- Claim C8 witness: a single pending change with an id absent from the
remote snapshot is present in the merged snapshot at its id. -/
theorem mergeChanges_absent_id_last_wins_witness :
    getKey (mergeChanges [] [] ([] ++ recX :: [])) recX.id = some recX :=
  mergeChanges_absent_id_last_wins [] [] [] [] recX (by decide) (by simp)

/-- Claim C10: when the merged snapshot holds, at key i, a record whose
timestamp equals the remote version at i (in particular a pending change that
won the equal-timestamp deviceId tiebreak), calculateDiff between merged and
remote excludes i, since the diff keeps an id only when the timestamps differ
or the id is absent from remote; hence a tiebreak-won change is never
uploaded. The Nodup hypothesis states that remote is a genuine JavaScript
object, with no duplicated key. -/
theorem tiebreak_win_excluded_from_diff (baseState remoteState : Snapshot) (q : List Record)
    (i : String) (c r : Record)
    (hnd : (keysOf remoteState).Nodup)
    (hm : getKey (mergeChanges baseState remoteState q) i = some c)
    (hr : getKey remoteState i = some r)
    (ht : c.timestamp = r.timestamp)
    (hd : jsLt r.deviceId c.deviceId = true) :
    getKey (calculateDiff (mergeChanges baseState remoteState q) remoteState) i = none :=
  getKey_calculateDiff_eq_timestamp _ _ _ _ _
    (keysOf_mergeChanges_nodup _ _ _ hnd) hm hr ht.symm

/-- Claim C10 witness: the change recY wins the tiebreak against the remote
entry recX for id a, and the resulting diff contains nothing at a. -/
theorem tiebreak_win_excluded_from_diff_witness :
    getKey (calculateDiff (mergeChanges [] [("a", recX)] [recY]) [("a", recX)]) "a" = none :=
  tiebreak_win_excluded_from_diff [] [("a", recX)] [recY] "a" recY recX
    (by decide) (by decide) (by decide) (by decide) (by decide)

theorem queueChange_spec (st : SchedState) (c : ChangeInput) (now : Nat) (deviceId : String) :
    (queueChange st c now deviceId).sync =
      { st.sync with changeQueue := st.sync.changeQueue ++ [stampChange c now deviceId] } ∧
    (queueChange st c now deviceId).timers =
      (if st.sync.isSyncing = false then st.timers ++ [now + SYNC_DELAY] else st.timers) := by
  unfold queueChange scheduleSyncIfNeeded
  split
  · next h =>
    rw [if_pos h.1]
    exact ⟨rfl, rfl⟩
  · next h =>
    rw [if_neg ?_]
    · exact ⟨rfl, rfl⟩
    · intro hfalse
      exact h ⟨hfalse, by simp⟩

theorem enqueueAll_spec (st : SchedState) (deviceId : String)
    (arrivals : List (ChangeInput × Nat)) :
    (enqueueAll st arrivals deviceId).sync.changeQueue =
      st.sync.changeQueue ++ arrivals.map (fun p => stampChange p.1 p.2 deviceId) ∧
    (enqueueAll st arrivals deviceId).sync.isSyncing = st.sync.isSyncing ∧
    (enqueueAll st arrivals deviceId).sync.lastSyncTimestamp = st.sync.lastSyncTimestamp ∧
    (enqueueAll st arrivals deviceId).sync.lastKnownState = st.sync.lastKnownState ∧
    (enqueueAll st arrivals deviceId).timers =
      (if st.sync.isSyncing = false
       then st.timers ++ arrivals.map (fun p => p.2 + SYNC_DELAY)
       else st.timers) := by
  induction arrivals generalizing st with
  | nil =>
    refine ⟨by simp [enqueueAll], rfl, rfl, rfl, ?_⟩
    split <;> simp [enqueueAll]
  | cons a rest ih =>
    obtain ⟨hq1, hq2⟩ := queueChange_spec st a.1 a.2 deviceId
    obtain ⟨h1, h2, h3, h4, h5⟩ := ih (queueChange st a.1 a.2 deviceId)
    rw [show enqueueAll st (a :: rest) deviceId
        = enqueueAll (queueChange st a.1 a.2 deviceId) rest deviceId from rfl]
    refine ⟨?_, ?_, ?_, ?_, ?_⟩
    · rw [h1, hq1]
      simp
    · rw [h2, hq1]
    · rw [h3, hq1]
    · rw [h4, hq1]
    · rw [h5, hq1, hq2]
      by_cases hs : st.sync.isSyncing = false
      · simp [hs]
      · simp [hs]

/-- Claim C5 counterexample: two enqueue calls from an idle manager inside
one debounce window each arm their own setTimeout, so two timers end up
armed; the source neither skips nor resets a timer while one is pending. -/
theorem repeated_enqueue_arms_multiple_timers :
    (queueChange emptyIdle inputC1 0 "D").timers = [0 + SYNC_DELAY] ∧
    (queueChange (queueChange emptyIdle inputC1 0 "D") inputC2 2000 "D").timers =
      [0 + SYNC_DELAY, 2000 + SYNC_DELAY] := by decide

/-- Claim C5, amended: every enqueue while no cycle is running arms one
additional timer, SYNC_DELAY (5000 ms) after that enqueue; timers are never
reset or deduplicated. All changes of the burst are stamped and appended to
the queue, so the earliest armed timer, firing SYNC_DELAY after the first
enqueue, starts a cycle whose merge receives every change of the burst; a
timer that fires while that cycle still runs performs no steps. -/
theorem burst_enqueue_arms_one_timer_each (st : SchedState) (deviceId : String)
    (burst : List (ChangeInput × Nat)) (h : st.sync.isSyncing = false) :
    (enqueueAll st burst deviceId).sync.changeQueue =
      st.sync.changeQueue ++ burst.map (fun p => stampChange p.1 p.2 deviceId) ∧
    (enqueueAll st burst deviceId).timers =
      st.timers ++ burst.map (fun p => p.2 + SYNC_DELAY) ∧
    (enqueueAll st burst deviceId).sync.isSyncing = false := by
  obtain ⟨h1, h2, h3, h4, h5⟩ := enqueueAll_spec st deviceId burst
  exact ⟨h1, by rw [h5, if_pos h], by rw [h2, h]⟩

/-- Claim C5 witness: a burst of two enqueues from the idle manager arms two
timers at the respective enqueue times plus SYNC_DELAY and queues both
stamped changes in order. -/
theorem burst_enqueue_arms_one_timer_each_witness :
    (enqueueAll emptyIdle [(inputC1, 0), (inputC2, 2000)] "D").sync.changeQueue =
      emptyIdle.sync.changeQueue ++
        [(inputC1, 0), (inputC2, 2000)].map (fun p => stampChange p.1 p.2 "D") ∧
    (enqueueAll emptyIdle [(inputC1, 0), (inputC2, 2000)] "D").timers =
      emptyIdle.timers ++ [(inputC1, 0), (inputC2, 2000)].map (fun p => p.2 + SYNC_DELAY) ∧
    (enqueueAll emptyIdle [(inputC1, 0), (inputC2, 2000)] "D").sync.isSyncing = false :=
  burst_enqueue_arms_one_timer_each emptyIdle "D" [(inputC1, 0), (inputC2, 2000)] rfl

/-- Claim C7: mutual exclusion of cycles. A performSync invocation that finds
isSyncing true returns at once, with the state untouched and neither fetch
nor upload invoked; an invocation that actually runs leaves isSyncing false
at the end of every branch, success or failure, through the finally block. -/
theorem performSync_mutual_exclusion (st : SchedState) (deviceId : String) (env : CycleEnv) :
    (st.sync.isSyncing = true →
      performSync st deviceId env =
        { state := st, fetchInvoked := false, uploadInvoked := false, errorCaught := false }) ∧
    (st.sync.isSyncing = false → (performSync st deviceId env).state.sync.isSyncing = false) := by
  constructor
  · intro h
    unfold performSync
    rw [if_pos h]
  · intro h
    unfold performSync
    rw [if_neg (by simp [h])]
    dsimp only
    split
    · rfl
    · split
      · split
        · rfl
        · rfl
      · rfl

/-- Claim C7 witness: the guard returns unchanged on a busy manager, and a
full run on the idle manager ends with isSyncing false. -/
theorem performSync_mutual_exclusion_witness :
    performSync stBusy "D" envTrivial =
      { state := stBusy, fetchInvoked := false, uploadInvoked := false, errorCaught := false } ∧
    (performSync emptyIdle "D" envTrivial).state.sync.isSyncing = false :=
  ⟨(performSync_mutual_exclusion stBusy "D" envTrivial).1 rfl,
   (performSync_mutual_exclusion emptyIdle "D" envTrivial).2 rfl⟩

/-- Claim C3: in a cycle that finds isSyncing false, whose fetch succeeds,
and where the diff between the merged and the fetched remote snapshot is
empty, the upload step is skipped and the cycle still commits: the change
queue is cleared and lastSyncTimestamp is set to the commit-time Date.now.
The merged snapshot is computed over the queue as it stands after the fetch
await, hence the stamped arrivals appended to the starting queue. -/
theorem performSync_empty_diff_commits (st : SchedState) (deviceId : String) (env : CycleEnv)
    (remoteState : Snapshot)
    (h : st.sync.isSyncing = false)
    (hf : env.fetchResult = some remoteState)
    (hd : calculateDiff
        (mergeChanges st.sync.lastKnownState remoteState
          (st.sync.changeQueue ++
            env.arrivalsDuringFetch.map (fun p => stampChange p.1 p.2 deviceId)))
        remoteState = []) :
    (performSync st deviceId env).uploadInvoked = false ∧
    (performSync st deviceId env).state.sync.changeQueue = [] ∧
    (performSync st deviceId env).state.sync.lastSyncTimestamp = env.now := by
  unfold performSync
  rw [if_neg (by simp [h])]
  dsimp only
  rw [hf]
  obtain ⟨hq, hsy, hts, hlks, htm⟩ :=
    enqueueAll_spec { st with sync := { st.sync with isSyncing := true } } deviceId
      env.arrivalsDuringFetch
  dsimp only at hq hlks
  dsimp only
  rw [hq, hlks]
  simp [hasChanges, hd]

/-- Claim C3 witness: a cycle on the fresh idle manager against an empty
remote snapshot has an empty diff, skips the upload and still commits. -/
theorem performSync_empty_diff_commits_witness :
    (performSync emptyIdle "D" envTrivial).uploadInvoked = false ∧
    (performSync emptyIdle "D" envTrivial).state.sync.changeQueue = [] ∧
    (performSync emptyIdle "D" envTrivial).state.sync.lastSyncTimestamp = envTrivial.now :=
  performSync_empty_diff_commits emptyIdle "D" envTrivial [] rfl rfl (by decide)

/-- Claim C6: whenever a cycle ends in the catch block (its fetch or its
upload threw), the queue at cycle end is exactly the queue at cycle start
followed by the stamped arrivals that occurred during the cycle, with no
loss and no duplication: only the fetch await arrivals when the fetch threw,
the arrivals of both awaits when the upload threw. lastSyncTimestamp is
unchanged and isSyncing is false again; the error never escapes performSync,
which the model reflects by being a total function. -/
theorem performSync_failure_preserves_queue (st : SchedState) (deviceId : String) (env : CycleEnv)
    (h : st.sync.isSyncing = false)
    (herr : (performSync st deviceId env).errorCaught = true) :
    (performSync st deviceId env).state.sync.lastSyncTimestamp = st.sync.lastSyncTimestamp ∧
    ((performSync st deviceId env).state.sync.changeQueue =
        st.sync.changeQueue ++
          env.arrivalsDuringFetch.map (fun p => stampChange p.1 p.2 deviceId) ∨
     (performSync st deviceId env).state.sync.changeQueue =
        (st.sync.changeQueue ++
          env.arrivalsDuringFetch.map (fun p => stampChange p.1 p.2 deviceId)) ++
          env.arrivalsDuringUpload.map (fun p => stampChange p.1 p.2 deviceId)) ∧
    (performSync st deviceId env).state.sync.isSyncing = false := by
  revert herr
  unfold performSync
  rw [if_neg (by simp [h])]
  dsimp only
  obtain ⟨hq, hsy, hts, hlks, htm⟩ :=
    enqueueAll_spec { st with sync := { st.sync with isSyncing := true } } deviceId
      env.arrivalsDuringFetch
  dsimp only at hq hts
  split
  · intro _
    dsimp only
    exact ⟨hts, Or.inl hq, rfl⟩
  · split
    · split
      · intro herr
        simp at herr
      · intro _
        obtain ⟨hq2, hsy2, hts2, hlks2, htm2⟩ :=
          enqueueAll_spec
            (enqueueAll { st with sync := { st.sync with isSyncing := true } }
              env.arrivalsDuringFetch deviceId)
            deviceId env.arrivalsDuringUpload
        dsimp only
        refine ⟨?_, Or.inr ?_, rfl⟩
        · rw [hts2, hts]
        · rw [hq2, hq]
    · intro herr
      simp at herr

/-- Claim C6 witness: a cycle whose fetch throws while one change arrives
during the fetch await keeps the starting queue plus that stamped arrival,
leaves lastSyncTimestamp alone, and ends with isSyncing false. -/
theorem performSync_failure_preserves_queue_witness :
    (performSync stOneQueued "D" envFetchFail).state.sync.lastSyncTimestamp =
      stOneQueued.sync.lastSyncTimestamp ∧
    ((performSync stOneQueued "D" envFetchFail).state.sync.changeQueue =
        stOneQueued.sync.changeQueue ++
          envFetchFail.arrivalsDuringFetch.map (fun p => stampChange p.1 p.2 "D") ∨
     (performSync stOneQueued "D" envFetchFail).state.sync.changeQueue =
        (stOneQueued.sync.changeQueue ++
          envFetchFail.arrivalsDuringFetch.map (fun p => stampChange p.1 p.2 "D")) ++
          envFetchFail.arrivalsDuringUpload.map (fun p => stampChange p.1 p.2 "D")) ∧
    (performSync stOneQueued "D" envFetchFail).state.sync.isSyncing = false :=
  performSync_failure_preserves_queue stOneQueued "D" envFetchFail rfl (by decide)

/-- Claim C1 failing run: the armed timer of stOneQueued fires; the fetch
succeeds against an empty remote snapshot, so the queued change recX is
merged and uploaded, and the upload succeeds; during the upload await the
change inputB is enqueued, after the queue contents were passed to merge. At
cycle end the queue is empty: the assignment this.changeQueue = [] on the
success path has dropped the enqueued change, which no later cycle can ever
see. -/
theorem performSync_success_drops_upload_arrivals :
    (fireTimer stOneQueued "D" envUploadArrival).uploadInvoked = true ∧
    (fireTimer stOneQueued "D" envUploadArrival).errorCaught = false ∧
    (fireTimer stOneQueued "D" envUploadArrival).state.sync.changeQueue = [] ∧
    envUploadArrival.arrivalsDuringUpload ≠ [] := by decide

/-- Claim C4 failing run: the armed timer of stOneQueued fires and the fetch
throws, so the cycle completes with a non-empty queue (the starting change
plus the arrival of the fetch await). No timer is armed at completion and
performSync schedules nothing, so nothing will ever sync these changes until
some unrelated later enqueue arms a fresh timer. -/
theorem fireTimer_failure_schedules_nothing :
    (fireTimer stOneQueued "D" envFetchFail).state.sync.changeQueue ≠ [] ∧
    (fireTimer stOneQueued "D" envFetchFail).state.timers = [] ∧
    (fireTimer stOneQueued "D" envFetchFail).state.sync.isSyncing = false := by decide

theorem chunkPayload_flatten {α : Type} (m : Nat) (hm : 0 < m) (data : List α) :
    (chunkPayload m data).flatten = data := by
  generalize hn : data.length = n
  induction n using Nat.strong_induction_on generalizing data with
  | _ n ih =>
    cases data with
    | nil => simp [chunkPayload]
    | cons a rest =>
      rw [chunkPayload]
      rw [dif_neg (by omega : ¬ m = 0)]
      rw [List.flatten_cons]
      rw [ih ((a :: rest).drop m).length (by subst hn; simp [List.length_drop]; omega) _ rfl]
      exact List.take_append_drop m (a :: rest)

theorem chunkPayload_length {α : Type} (m : Nat) (hm : 0 < m) (data : List α) :
    (chunkPayload m data).length = (data.length + m - 1) / m := by
  generalize hn : data.length = n
  induction n using Nat.strong_induction_on generalizing data with
  | _ n ih =>
    cases data with
    | nil =>
      simp only [List.length_nil] at hn
      subst hn
      simp only [chunkPayload, List.length_nil]
      rw [eq_comm, Nat.div_eq_of_lt (by omega)]
    | cons a rest =>
      simp only [List.length_cons] at hn
      subst hn
      rw [chunkPayload, dif_neg (by omega : ¬ m = 0), List.length_cons]
      rw [ih ((a :: rest).drop m).length (by simp [List.length_drop]; omega) _ rfl]
      simp only [List.length_drop, List.length_cons]
      rcases Nat.lt_or_ge (rest.length + 1) m with hcase | hcase
      · have h1 : rest.length + 1 - m + m - 1 = m - 1 := by omega
        have h2 : rest.length + 1 + m - 1 = rest.length + m := by omega
        rw [h1, h2, Nat.add_div_right _ hm]
        rw [Nat.div_eq_of_lt (by omega), Nat.div_eq_of_lt (by omega)]
      · have h1 : rest.length + 1 - m + m - 1 = rest.length := by omega
        have h2 : rest.length + 1 + m - 1 = rest.length + m := by omega
        rw [h1, h2, Nat.add_div_right _ hm]

theorem chunkPayload_sizes {α : Type} (m : Nat) (data : List α) :
    ∀ p ∈ chunkPayload m data, p.length ≤ m := by
  generalize hn : data.length = n
  induction n using Nat.strong_induction_on generalizing data with
  | _ n ih =>
    cases data with
    | nil => simp [chunkPayload]
    | cons a rest =>
      by_cases hm : m = 0
      · simp [chunkPayload, hm]
      · rw [chunkPayload, dif_neg hm]
        intro p hp
        rcases List.mem_cons.mp hp with hp | hp
        · subst hp
          simp [List.length_take]
        · exact ih ((a :: rest).drop m).length
            (by subst hn; simp [List.length_drop]; omega) _ rfl p hp

/-- Claim C9 counterexample: a serialized payload of exactly PART_SIZE bytes
(so P equal to M) is not sent as a single unit; the source dispatch uses a
strict comparison, so the payload takes the multipart path. -/
theorem uploadDiff_at_threshold_not_single :
    (S3MultipartUpload.uploadDiff
        (List.replicate S3MultipartUpload.PART_SIZE (0 : Nat))).isSingle = false := by
  unfold S3MultipartUpload.uploadDiff
  rw [if_neg ?_]
  · rfl
  · rw [List.length_replicate]
    omega

/-- Claim C9, amended: a serialized payload of size P with part size M
(PART_SIZE, 5242880 bytes) is sent as exactly one unit when P is strictly
below M; when P is at least M it goes down the multipart path and is split
into ordered parts, (P + M - 1) / M of them (the ceiling of P / M), each of
size at most M, whose in-order concatenation is the payload. -/
theorem uploadDiff_chunking {α : Type} (data : List α) :
    (data.length < S3MultipartUpload.PART_SIZE →
      S3MultipartUpload.uploadDiff data = TransferResult.single data) ∧
    (S3MultipartUpload.PART_SIZE ≤ data.length →
      S3MultipartUpload.uploadDiff data =
        TransferResult.multipart (chunkPayload S3MultipartUpload.PART_SIZE data) ∧
      (chunkPayload S3MultipartUpload.PART_SIZE data).length =
        (data.length + S3MultipartUpload.PART_SIZE - 1) / S3MultipartUpload.PART_SIZE ∧
      (∀ p ∈ chunkPayload S3MultipartUpload.PART_SIZE data,
        p.length ≤ S3MultipartUpload.PART_SIZE) ∧
      (chunkPayload S3MultipartUpload.PART_SIZE data).flatten = data) := by
  have hm : 0 < S3MultipartUpload.PART_SIZE := by
    norm_num [S3MultipartUpload.PART_SIZE]
  constructor
  · intro h
    simp [S3MultipartUpload.uploadDiff, h]
  · intro h
    refine ⟨?_, chunkPayload_length _ hm data, chunkPayload_sizes _ data,
      chunkPayload_flatten _ hm data⟩
    rw [S3MultipartUpload.uploadDiff, if_neg (by omega)]

/-- Claim C9 witness: a three-byte payload is below the threshold and is
sent as a single unit. -/
theorem uploadDiff_chunking_witness :
    S3MultipartUpload.uploadDiff [1, 2, 3] = TransferResult.single [1, 2, 3] :=
  (uploadDiff_chunking [1, 2, 3]).1 (by decide)
